import Mathlib

/-!
Verification of the fallback question-generation pipeline of the
question-paper generator (`src/app.py`, class `QuestionPaperGenerator`).

The Python code is shallowly embedded: each method becomes an executable
Lean function over `String` / `List Char`.  The two NLTK tokenizers
(`sent_tokenize`, `word_tokenize`) and the NLTK English stopword list are
external library facilities, embedded here as simple executable models
(sentence split after `.` `!` `?`; word split into maximal alphanumeric
runs plus single punctuation tokens; the standard NLTK stopword list as a
literal).  Python's global `random` source is embedded as an explicit
stream `g : Nat → Nat` of raw draws together with a running position,
so that theorems quantify over every possible sequence of random draws.
-/

namespace QPG

/-! ## String primitives (models of the corresponding Python `str` methods) -/

/-- Model of Python `str.lower` (ASCII case folding). -/
def lowerStr (s : String) : String := ⟨s.data.map Char.toLower⟩

/-- Auxiliary for `titleStr`: Python title-cases each alphabetic run,
tracking whether the previous character was alphabetic. -/
def titleAux : Bool → List Char → List Char
  | _, [] => []
  | prevAlpha, c :: rest =>
    (if c.isAlpha then (if prevAlpha then c.toLower else c.toUpper) else c)
      :: titleAux c.isAlpha rest

/-- Model of Python `str.title`. -/
def titleStr (s : String) : String := ⟨titleAux false s.data⟩

/-- Remove leading and trailing whitespace of a character list. -/
def trimL (l : List Char) : List Char :=
  ((l.dropWhile Char.isWhitespace).reverse.dropWhile Char.isWhitespace).reverse

/-- Model of Python `str.strip()`. -/
def stripStr (s : String) : String := ⟨trimL s.data⟩

/-- `containsSub hay needle`: does `needle` occur as a contiguous sublist of
`hay`?  Model of Python's `needle in hay` on strings. -/
def containsSub (hay needle : List Char) : Bool :=
  match hay with
  | [] => needle.isEmpty
  | c :: t => needle.isPrefixOf (c :: t) || containsSub t needle

/-- Model of Python `str.isalnum()`: non-empty and all characters
alphanumeric. -/
def isAlnumStr (s : String) : Bool := !s.data.isEmpty && s.data.all Char.isAlphanum

/-- Model of Python `s.replace(old, new, 1)`: replace the first occurrence
of `old` (leftmost starting position) by `new`. -/
def replaceFirstL (s old new : List Char) : List Char :=
  match s with
  | [] => if old.isEmpty then new else []
  | c :: rest =>
    if old.isPrefixOf (c :: rest) then new ++ (c :: rest).drop old.length
    else c :: replaceFirstL rest old new

/-- String-level wrapper of `replaceFirstL`. -/
def replaceFirst (s old new : String) : String := ⟨replaceFirstL s.data old.data new.data⟩

/-- Model of Python `str.split(sep)` for a single separator character:
never collapses and never drops empty pieces, so it always returns at
least one piece. -/
def splitOnChar (c : Char) : List Char → List (List Char)
  | [] => [[]]
  | a :: rest =>
    if a = c then [] :: splitOnChar c rest
    else
      match splitOnChar c rest with
      | [] => [[a]]
      | h :: t => (a :: h) :: t

/-- Model of Python `sep.join(pieces)` on character lists. -/
def joinSep (sep : List Char) : List (List Char) → List Char
  | [] => []
  | [x] => x
  | x :: y :: rest => x ++ sep ++ joinSep sep (y :: rest)

/-- Model of Python `sep.join(strings)`. -/
def joinWith (sep : String) (l : List String) : String :=
  ⟨joinSep sep.data (l.map String.data)⟩

/-- `full_text.split('\n')` as a list of strings. -/
def linesOf (s : String) : List String :=
  (splitOnChar (Char.ofNat 10) s.data).map (fun l => (⟨l⟩ : String))

/-! ## Tokenizer models (external NLTK facilities) -/

/-- Sentence-final punctuation used by the `sent_tokenize` model. -/
def isSentEnd (c : Char) : Bool := c = '.' || c = '!' || c = '?'

/-- Auxiliary for `sent_tokenize`: cut after every sentence-final
punctuation character. -/
def sentAux (cur : List Char) : List Char → List (List Char)
  | [] => [cur.reverse]
  | c :: rest =>
    if isSentEnd c then (c :: cur).reverse :: sentAux [] rest
    else sentAux (c :: cur) rest

/-- Model of NLTK `sent_tokenize`: split after `.` `!` `?`, trim each
piece, drop empty pieces. -/
def sent_tokenize (s : String) : List String :=
  (((sentAux [] s.data).map trimL).filter (fun p => !p.isEmpty)).map
    (fun p => (⟨p⟩ : String))

/-- Auxiliary for `word_tokenize`: maximal alphanumeric runs are tokens,
every other non-whitespace character is its own token. -/
def wordAux (cur : List Char) : List Char → List (List Char)
  | [] => if cur.isEmpty then [] else [cur.reverse]
  | c :: rest =>
    if c.isAlphanum then wordAux (c :: cur) rest
    else if c.isWhitespace then
      (if cur.isEmpty then wordAux [] rest else cur.reverse :: wordAux [] rest)
    else
      (if cur.isEmpty then [c] :: wordAux [] rest
       else cur.reverse :: [c] :: wordAux [] rest)

/-- Model of NLTK `word_tokenize`. -/
def word_tokenize (s : String) : List String :=
  (wordAux [] s.data).map (fun p => (⟨p⟩ : String))

/-- The NLTK English stopword list (`stopwords.words('english')`),
embedded as a literal; `self.stop_words` in the source. -/
def stop_words : List String :=
  ["i", "me", "my", "myself", "we", "our", "ours", "ourselves", "you",
   "you\x27re", "you\x27ve", "you\x27ll", "you\x27d", "your", "yours",
   "yourself", "yourselves", "he", "him", "his", "himself", "she",
   "she\x27s", "her", "hers", "herself", "it", "it\x27s", "its", "itself",
   "they", "them", "their", "theirs", "themselves", "what", "which", "who",
   "whom", "this", "that", "that\x27ll", "these", "those", "am", "is",
   "are", "was", "were", "be", "been", "being", "have", "has", "had",
   "having", "do", "does", "did", "doing", "a", "an", "the", "and", "but",
   "if", "or", "because", "as", "until", "while", "of", "at", "by", "for",
   "with", "about", "against", "between", "into", "through", "during",
   "before", "after", "above", "below", "to", "from", "up", "down", "in",
   "out", "on", "off", "over", "under", "again", "further", "then", "once",
   "here", "there", "when", "where", "why", "how", "all", "any", "both",
   "each", "few", "more", "most", "other", "some", "such", "no", "nor",
   "not", "only", "own", "same", "so", "than", "too", "very", "s", "t",
   "can", "will", "just", "don", "don\x27t", "should", "should\x27ve",
   "now", "d", "ll", "m", "o", "re", "ve", "y", "ain", "aren",
   "aren\x27t", "couldn", "couldn\x27t", "didn", "didn\x27t", "doesn",
   "doesn\x27t", "hadn", "hadn\x27t", "hasn", "hasn\x27t", "haven",
   "haven\x27t", "isn", "isn\x27t", "ma", "mightn", "mightn\x27t",
   "mustn", "mustn\x27t", "needn", "needn\x27t", "shan", "shan\x27t",
   "shouldn", "shouldn\x27t", "wasn", "wasn\x27t", "weren", "weren\x27t",
   "won", "won\x27t", "wouldn", "wouldn\x27t"]

/-! ## Randomness model

Python's module-level `random` is embedded as a stream `g : Nat → Nat` of
raw draws plus the current position `p` in the stream; each primitive
consumes draws and returns the advanced position.  As `g` ranges over all
streams, each primitive ranges over exactly the outcomes the Python
primitive can produce (an arbitrary element for `random.choice`, an
arbitrary selection without replacement in arbitrary order for
`random.sample`, an arbitrary permutation for `random.shuffle`). -/

/-- Model of `random.choice(xs)`; `d` is a (never used at call sites)
default for the empty list, on which Python would raise. -/
def rchoice {α : Type} (g : Nat → Nat) (p : Nat) (xs : List α) (d : α) : α × Nat :=
  (xs.getD (g p % xs.length) d, p + 1)

/-- Model of `random.sample(xs, k)`: `k` draws without replacement. -/
def rsample (g : Nat → Nat) : Nat → Nat → List String → List String × Nat
  | p, 0, _ => ([], p)
  | p, _ + 1, [] => ([], p)
  | p, k + 1, x :: xs =>
    let l := x :: xs
    let i := g p % l.length
    let chosen := l.getD i ""
    let rest := rsample g (p + 1) k (l.eraseIdx i)
    (chosen :: rest.1, rest.2)

/-- Model of `random.shuffle(xs)`: an arbitrary permutation, realised as a
full-length sample without replacement. -/
def rshuffle (g : Nat → Nat) (p : Nat) (xs : List String) : List String × Nat :=
  rsample g p xs.length xs

/-! ## Topic locator (`find_topic_content`, src/app.py lines 80-116) -/

/-- `line.lower().strip()` as computed at the top of the scan loop. -/
def lineKey (line : String) : String := stripStr (lowerStr line)

/-- The start-of-capture test.  The source builds four regex patterns
(`chapter\s+\d*\s*:?\s*T`, `unit ...`, `section ...`, and the bare escaped
topic `T`) and tests `re.search` of each against the lowered stripped
line.  Because the fourth pattern is the bare topic and `re.search`
matches anywhere, and every match of the first three patterns contains a
match of the bare topic, the disjunction of the four searches is
equivalent to case-insensitive substring containment of the topic, which
is what this function computes. -/
def matchesTopic (line topic : String) : Bool :=
  containsSub (lineKey line).data (lowerStr topic).data

/-- After a keyword match, the heading regexes require one or more
whitespace characters and then a digit (`\s+\d+`); this checks
whitespace-star-then-digit, used after the first mandatory whitespace. -/
def wsStarDigit : List Char → Bool
  | [] => false
  | c :: rest => if c.isWhitespace then wsStarDigit rest else c.isDigit

/-- Does `kw ++ \s+\d+` match at the start of `cs`? -/
def matchKwNumAt (kw cs : List Char) : Bool :=
  kw.isPrefixOf cs &&
    (match cs.drop kw.length with
     | [] => false
     | c :: r => c.isWhitespace && wsStarDigit r)

/-- Model of `re.search(kw + r'\s+\d+', cs)`: try every start position. -/
def searchKwNum (kw : List Char) : List Char → Bool
  | [] => matchKwNumAt kw []
  | c :: rest => matchKwNumAt kw (c :: rest) || searchKwNum kw rest

/-- The stop-of-capture heading test of `find_topic_content`
(`chapter\s+\d+` or `unit\s+\d+` or `section\s+\d+` searched in the
lowered stripped line). -/
def isHeadingLine (ll : String) : Bool :=
  searchKwNum "chapter".data ll.data || searchKwNum "unit".data ll.data ||
    searchKwNum "section".data ll.data

/-- The line scan of `find_topic_content`: start capturing (inclusive) at
any line matching the topic patterns, stop (`break`) at the first captured
non-topic chapter/unit/section heading. -/
def ftcLoop (topic : String) : List String → Bool → List String
  | [], _ => []
  | line :: rest, capturing =>
    if matchesTopic line topic then line :: ftcLoop topic rest true
    else if capturing && isHeadingLine (lineKey line) && !matchesTopic line topic then []
    else if capturing then line :: ftcLoop topic rest capturing
    else ftcLoop topic rest capturing

/-- `find_topic_content` (src/app.py lines 80-116): scan lines for the
topic, and if nothing was captured fall back to the first 50 sentences
joined by spaces. -/
def find_topic_content (full_text topic : String) : String :=
  let topic_content := ftcLoop topic (linesOf full_text) false
  if topic_content = [] then joinWith " " ((sent_tokenize full_text).take 50)
  else joinWith (String.singleton (Char.ofNat 10)) topic_content

/-! ## Distractor generator (`generate_wrong_answers`, lines 429-439) -/

/-- The fixed generic distractor set of `generate_wrong_answers`. -/
def generic_answers : List String :=
  ["None of the above", "All of the above", "Not specified", "Cannot be determined"]

/-- `generate_wrong_answers` (lines 429-439): up to two title-cased pool
words distinct from the lowercased correct answer, then two generic
answers, truncated to three. -/
def generate_wrong_answers (correct_answer : String) (word_pool : List String)
    (g : Nat → Nat) (p : Nat) : List String × Nat :=
  let candidates := (word_pool.filter (fun w => w ≠ lowerStr correct_answer)).map titleStr
  let s1 := rsample g p (min 2 candidates.length) candidates
  let s2 := rsample g s1.2 2 generic_answers
  ((s1.1 ++ s2.1).take 3, s2.2)

/-! ## Fallback MCQ generator (`generate_mcqs_fallback`, lines 317-353) -/

/-- One generated multiple-choice question (the dict built at line 345). -/
structure Mcq where
  question : String
  options : List String
  correct_answer : String
  context : String
deriving DecidableEq

/-- The content words of a (stripped) sentence as computed at lines
327-328: word-tokenize the lowered sentence, keep alphanumeric
non-stopword tokens. -/
def mcqWords (sentence : String) : List String :=
  (word_tokenize (lowerStr sentence)).filter
    (fun w => isAlnumStr w && !(stop_words.contains w))

/-- Does a raw sentence survive the two skip tests of the MCQ loop
(length at least 20 after stripping, at least 3 content words)? -/
def mcqQualifies (s : String) : Bool :=
  20 ≤ (stripStr s).data.length && 3 ≤ (mcqWords (stripStr s)).length

/-- The context excerpt recorded for a question: first 100 characters of
the source sentence with an ellipsis when truncated. -/
def contextOf (sentence : String) : String :=
  if 100 < sentence.data.length then (⟨sentence.data.take 100⟩ : String) ++ "..." else sentence

/-- The blank marker substituted for the key word. -/
def blankMarker : String := "______"

/-- The question stem: the sentence with the first occurrence of the key
word blanked, or the generic stem when the replacement changes nothing
(lines 335-337). -/
def mcqQuestionText (sentence key_word : String) : String :=
  let question_text := replaceFirst sentence key_word blankMarker
  if question_text = sentence then
    "What is mentioned about " ++ key_word ++ " in the following context?"
  else question_text

/-- The question-building part of one iteration of the MCQ loop (lines
333-351), for a stripped sentence that passed both skip tests: choose the
key word among the first five content words, build the stem, title-case
the correct answer, generate distractors, shuffle the four options.
Returns the question together with the advanced random position. -/
def mkMcqAt (g : Nat → Nat) (sentence : String) (p : Nat) : Mcq × Nat :=
  let words := mcqWords sentence
  let kw := rchoice g p (words.take (min 5 words.length)) ""
  let correct_answer := titleStr kw.1
  let wrong := generate_wrong_answers correct_answer words g kw.2
  let shuffled := rshuffle g wrong.2 (correct_answer :: wrong.1.take 3)
  ({ question := mcqQuestionText sentence kw.1, options := shuffled.1,
     correct_answer := correct_answer, context := contextOf sentence }, shuffled.2)

/-- The body of the `for` loop of `generate_mcqs_fallback`, over the
examined sentences, threading the random stream position. -/
def mcqsLoop (g : Nat → Nat) : List String → Nat → List Mcq
  | [], _ => []
  | sent :: rest, p =>
    if (stripStr sent).data.length < 20 then mcqsLoop g rest p
    else if (mcqWords (stripStr sent)).length < 3 then mcqsLoop g rest p
    else
      (mkMcqAt g (stripStr sent) p).1 :: mcqsLoop g rest (mkMcqAt g (stripStr sent) p).2

/-- `generate_mcqs_fallback` (lines 317-353): examine the first
`min num_questions (number of sentences)` sentences and truncate the
result to `num_questions`. -/
def generate_mcqs_fallback (content : String) (num_questions : Nat)
    (g : Nat → Nat) (p : Nat) : List Mcq :=
  let sentences := sent_tokenize content
  (mcqsLoop g (sentences.take (min num_questions sentences.length)) p).take num_questions

/-! ## Fallback short-question generator (lines 355-392) -/

/-- The fixed question starters of `generate_short_questions_fallback`. -/
def question_starters : List String :=
  ["What is", "Define", "Explain briefly", "What are the main", "How does",
   "Why is", "What causes", "List the"]

/-- Candidate terms of a (stripped) sentence as computed at lines 376-377:
word-tokenize (original case), keep alphanumeric tokens longer than 3. -/
def shortWords (sentence : String) : List String :=
  (word_tokenize sentence).filter (fun w => isAlnumStr w && 3 < w.data.length)

/-- Does a raw sentence survive the two skip tests of the short-question
loop? -/
def shortQualifies (s : String) : Bool :=
  20 ≤ (stripStr s).data.length && !(shortWords (stripStr s)).isEmpty

/-- The composed short question (lines 385-388). -/
def shortQuestion (starter key_concept : String) : String :=
  if starter = "Define" || starter = "List the" then starter ++ " " ++ key_concept ++ "."
  else starter ++ " " ++ key_concept ++ "?"

/-- The body of the `for` loop of `generate_short_questions_fallback`. -/
def shortLoop (g : Nat → Nat) : List String → Nat → List String
  | [], _ => []
  | sent :: rest, p =>
    let sentence := stripStr sent
    if sentence.data.length < 20 then shortLoop g rest p
    else
      let words := shortWords sentence
      if words.isEmpty then shortLoop g rest p
      else
        let kc := rchoice g p (words.take (min 3 words.length)) ""
        let starter := rchoice g kc.2 question_starters ""
        shortQuestion starter.1 kc.1 :: shortLoop g rest starter.2

/-- `generate_short_questions_fallback` (lines 355-392). -/
def generate_short_questions_fallback (content : String) (num_questions : Nat)
    (g : Nat → Nat) (p : Nat) : List String :=
  let sentences := sent_tokenize content
  (shortLoop g (sentences.take (min num_questions sentences.length)) p).take num_questions

/-! ## Fallback long-question generator (lines 394-427) -/

/-- The seven analytical templates (lines 399-407), as functions
substituting the phrase for the `format` placeholder. -/
def question_templates : List (String → String) :=
  [fun ph => "Discuss in detail about " ++ ph ++ ".",
   fun ph => "Explain the concept of " ++ ph ++ " with examples.",
   fun ph => "Analyze the importance of " ++ ph ++ " in the given context.",
   fun ph => "Compare and contrast different aspects of " ++ ph ++ ".",
   fun ph => "Evaluate the role of " ++ ph ++ " and its implications.",
   fun ph => "Describe the process of " ++ ph ++ " step by step.",
   fun ph => "Examine the relationship between " ++ ph ++ " and related concepts."]

/-- The filtered words of one sentence for key-phrase extraction (line
412): alphanumeric, longer than 3, lowercase form not a stopword. -/
def longWords (sentence : String) : List String :=
  (word_tokenize sentence).filter
    (fun w => isAlnumStr w && 3 < w.data.length && !(stop_words.contains (lowerStr w)))

/-- Adjacent-word bigrams of a token list (lines 414-416). -/
def bigrams : List String → List String
  | a :: b :: rest => (a ++ " " ++ b) :: bigrams (b :: rest)
  | _ => []

/-- Concatenation of per-element lists. -/
def concatMap (f : α → List β) : List α → List β
  | [] => []
  | a :: l => f a ++ concatMap f l

/-- All candidate key phrases: bigrams over the first 20 sentences. -/
def key_phrases (content : String) : List String :=
  concatMap (fun s => bigrams (longWords s)) ((sent_tokenize content).take 20)

/-- Distinct elements in order of first occurrence (the key order of a
Python `Counter` built by insertion). -/
def dedupFirst (l : List String) : List String :=
  l.foldl (fun acc x => if acc.contains x then acc else acc ++ [x]) []

/-- Stable insertion into a list sorted by descending count.  The sort
below proceeds from the right, so when `x` is inserted everything already
in the list occurs after `x` in the original order; placing `x` before the
first element of smaller-or-equal count therefore keeps first-seen order
among equal counts. -/
def insertDesc (cnt : String → Nat) (x : String) : List String → List String
  | [] => [x]
  | y :: ys => if cnt y ≤ cnt x then x :: y :: ys else y :: insertDesc cnt x ys

/-- Stable sort by descending count (first-seen order preserved among
equal counts), the documented behaviour of `Counter.most_common`. -/
def sortByCountDesc (cnt : String → Nat) : List String → List String
  | [] => []
  | x :: l => insertDesc cnt x (sortByCountDesc cnt l)

/-- `Counter(key_phrases).most_common(10)` (lines 418-419): the ten most
frequent phrases, most frequent first, ties in first-seen order. -/
def common_phrases (content : String) : List String :=
  let kp := key_phrases content
  (sortByCountDesc (fun ph => kp.count ph) (dedupFirst kp)).take 10

/-- The body of the `for` loop of `generate_long_questions_fallback`: one
randomly chosen template applied to each examined phrase. -/
def longLoop (g : Nat → Nat) : List String → Nat → List String
  | [], _ => []
  | ph :: rest, p =>
    let tmpl := rchoice g p question_templates (fun _ => "")
    tmpl.1 ph :: longLoop g rest tmpl.2

/-- `generate_long_questions_fallback` (lines 394-427). -/
def generate_long_questions_fallback (content : String) (num_questions : Nat)
    (g : Nat → Nat) (p : Nat) : List String :=
  let phrases := common_phrases content
  (longLoop g (phrases.take (min num_questions phrases.length)) p).take num_questions

/-! ## LLM-backed entry points (lines 118-282)

The Groq chat-completion call together with its response parsing is
external network I/O; it is embedded as an oracle parameter standing for
the configured client (`self.groq_client`), `none` when no client is
configured.  An `Except.error` result models any exception raised inside
the `try` block, which the source catches and answers with the fallback
generator. -/

/-- `generate_mcqs` (lines 118-175): dispatch to the fallback when no
client is configured or the backend path fails. -/
def generate_mcqs (client : Option (String → Nat → Except String (List Mcq)))
    (content : String) (num_questions : Nat) (g : Nat → Nat) (p : Nat) : List Mcq :=
  match client with
  | none => generate_mcqs_fallback content num_questions g p
  | some call =>
    match call content num_questions with
    | Except.error _ => generate_mcqs_fallback content num_questions g p
    | Except.ok ms => ms

/-- `generate_short_questions` (lines 177-227). -/
def generate_short_questions (client : Option (String → Nat → Except String (List String)))
    (content : String) (num_questions : Nat) (g : Nat → Nat) (p : Nat) : List String :=
  match client with
  | none => generate_short_questions_fallback content num_questions g p
  | some call =>
    match call content num_questions with
    | Except.error _ => generate_short_questions_fallback content num_questions g p
    | Except.ok qs => qs.take num_questions

/-- `generate_long_questions` (lines 229-282). -/
def generate_long_questions (client : Option (String → Nat → Except String (List String)))
    (content : String) (num_questions : Nat) (g : Nat → Nat) (p : Nat) : List String :=
  match client with
  | none => generate_long_questions_fallback content num_questions g p
  | some call =>
    match call content num_questions with
    | Except.error _ => generate_long_questions_fallback content num_questions g p
    | Except.ok qs => qs.take num_questions

/-! ## Paper formatter (`format_question_paper`, lines 441-488) -/

/-- Newline as a string (used pervasively by the formatter). -/
def nl : String := String.singleton (Char.ofNat 10)

/-- The default header block (lines 448-462); `today` stands for
`datetime.now().strftime('%Y-%m-%d')`. -/
def defaultHeader (today : String) : String :=
  nl ++ "QUESTION PAPER" ++ nl ++ "==============" ++ nl ++ nl ++
    "Subject: [Subject Name]" ++ nl ++ "Date: " ++ today ++ nl ++
    "Time: [Duration]" ++ nl ++ "Maximum Marks: [Total Marks]" ++ nl ++ nl ++
    "Instructions:" ++ nl ++ "1. Read all questions carefully" ++ nl ++
    "2. Answer all questions" ++ nl ++ "3. Write clearly and legibly" ++ nl ++ nl

/-- The `"=" * 40` divider. -/
def eq40 : String := "========================================"

/-- The lettered option lines of one MCQ (`chr(65+j)`). -/
def optionsBlock : Nat → List String → String
  | _, [] => ""
  | j, o :: rest =>
    "    " ++ String.singleton (Char.ofNat (65 + j)) ++ ". " ++ o ++ nl ++
      optionsBlock (j + 1) rest

/-- The numbered MCQ entries (enumeration starts at 1). -/
def mcqBlock : Nat → List Mcq → String
  | _, [] => ""
  | i, m :: rest =>
    "Q" ++ toString i ++ ". " ++ m.question ++ nl ++ optionsBlock 0 m.options ++ nl ++
      mcqBlock (i + 1) rest

/-- The numbered plain-question entries of sections B and C. -/
def questionsBlock : Nat → List String → String
  | _, [] => ""
  | i, q :: rest => "Q" ++ toString i ++ ". " ++ q ++ nl ++ nl ++ questionsBlock (i + 1) rest

/-- `format_question_paper` (lines 441-488).  The template is used
verbatim (plus a blank line) exactly when it is supplied, non-empty and
not whitespace-only (`if template and template.strip():`); sections with
no items are omitted entirely. -/
def format_question_paper (mcqs : List Mcq) (short_questions long_questions : List String)
    (template : Option String) (today : String) : String :=
  let base :=
    match template with
    | some t => if t ≠ "" && stripStr t ≠ "" then t ++ nl ++ nl else defaultHeader today
    | none => defaultHeader today
  let withA :=
    base ++
      (if mcqs.isEmpty then ""
       else nl ++ "SECTION A: MULTIPLE CHOICE QUESTIONS" ++ nl ++ eq40 ++ nl ++ nl ++
         mcqBlock 1 mcqs)
  let withB :=
    withA ++
      (if short_questions.isEmpty then ""
       else nl ++ "SECTION B: SHORT ANSWER QUESTIONS" ++ nl ++ eq40 ++ nl ++ nl ++
         questionsBlock 1 short_questions)
  withB ++
    (if long_questions.isEmpty then ""
     else nl ++ "SECTION C: LONG ANSWER QUESTIONS" ++ nl ++ eq40 ++ nl ++ nl ++
       questionsBlock 1 long_questions)

/-! ## Basic lemmas about the primitives -/

theorem charOfNat_toNat {n : Nat} (hv : n.isValidChar) : (Char.ofNat n).toNat = n := by
  rw [Char.ofNat, dif_pos hv]
  rfl

theorem toLower_toLower (c : Char) : c.toLower.toLower = c.toLower := by
  unfold Char.toLower
  dsimp only
  by_cases h : c.toNat ≥ 65 ∧ c.toNat ≤ 90
  · rw [if_pos h]
    have hv : (c.toNat + 32).isValidChar := Or.inl (by omega)
    have he : (Char.ofNat (c.toNat + 32)).toNat = c.toNat + 32 := charOfNat_toNat hv
    rw [if_neg (by omega)]
  · rw [if_neg h, if_neg h]

theorem lowerStr_lowerStr (s : String) : lowerStr (lowerStr s) = lowerStr s := by
  simp only [lowerStr, List.map_map]
  exact congrArg String.mk (List.map_congr_left (fun c _ => toLower_toLower c))

theorem containsSub_nil_needle (hay : List Char) : containsSub hay [] = true := by
  induction hay with
  | nil => rfl
  | cons c t ih => simp [containsSub, ih, List.isPrefixOf]

theorem splitOnChar_ne_nil (c : Char) (d : List Char) : splitOnChar c d ≠ [] := by
  cases d with
  | nil => simp [splitOnChar]
  | cons a rest =>
    rw [splitOnChar]
    by_cases h : a = c
    · simp [h]
    · rw [if_neg h]
      cases splitOnChar c rest <;> simp

theorem joinSep_splitOnChar (c : Char) (d : List Char) :
    joinSep [c] (splitOnChar c d) = d := by
  induction d with
  | nil => rfl
  | cons a rest ih =>
    rw [splitOnChar]
    by_cases h : a = c
    · rw [if_pos h]
      obtain ⟨y, t, hyt⟩ := List.exists_cons_of_ne_nil (splitOnChar_ne_nil c rest)
      rw [hyt]
      rw [hyt] at ih
      simp [joinSep, ih, h]
    · rw [if_neg h]
      obtain ⟨y, t, hyt⟩ := List.exists_cons_of_ne_nil (splitOnChar_ne_nil c rest)
      rw [hyt]
      rw [hyt] at ih
      cases t with
      | nil => simpa [joinSep] using congrArg (a :: ·) ih
      | cons z t2 => simpa [joinSep] using congrArg (a :: ·) ih

theorem splitOnChar_no_sep {c : Char} {x : List Char} (h : c ∉ x) :
    splitOnChar c x = [x] := by
  induction x with
  | nil => rfl
  | cons a rest ih =>
    have ha : a ≠ c := fun hac => h (by simp [hac])
    have hr : c ∉ rest := fun hc => h (by simp [hc])
    rw [splitOnChar, if_neg ha, ih hr]

theorem splitOnChar_append_sep {c : Char} {x : List Char} (d : List Char) (h : c ∉ x) :
    splitOnChar c (x ++ c :: d) = x :: splitOnChar c d := by
  induction x with
  | nil => simp [splitOnChar]
  | cons a rest ih =>
    have ha : a ≠ c := fun hac => h (by simp [hac])
    have hr : c ∉ rest := fun hc => h (by simp [hc])
    rw [List.cons_append, splitOnChar, if_neg ha, ih hr]

theorem splitOnChar_joinSep {c : Char} :
    ∀ {L : List (List Char)}, L ≠ [] → (∀ l ∈ L, c ∉ l) →
      splitOnChar c (joinSep [c] L) = L
  | [], h, _ => absurd rfl h
  | [x], _, hall => by
      simp [joinSep, splitOnChar_no_sep (hall x (by simp))]
  | x :: y :: t, _, hall => by
      have hx : c ∉ x := hall x (by simp)
      have ih : splitOnChar c (joinSep [c] (y :: t)) = y :: t :=
        splitOnChar_joinSep (by simp) (fun l hl => hall l (by simp [hl]))
      calc splitOnChar c (joinSep [c] (x :: y :: t))
          = splitOnChar c (x ++ c :: joinSep [c] (y :: t)) := by simp [joinSep]
        _ = x :: splitOnChar c (joinSep [c] (y :: t)) := splitOnChar_append_sep _ hx
        _ = x :: y :: t := by rw [ih]

theorem getD_mem {α : Type} {l : List α} {i : Nat} {d : α} (h : i < l.length) :
    l.getD i d ∈ l := by
  induction l generalizing i with
  | nil => simp at h
  | cons a t ih =>
    cases i with
    | zero => simp [List.getD]
    | succ j =>
      have hj : j < t.length := by simpa using h
      have := ih hj
      simp only [List.getD_cons_succ]
      exact List.mem_cons_of_mem a this

/-! ## Lemmas about the randomness model -/

theorem rsample_length (g : Nat → Nat) :
    ∀ (k : Nat) (p : Nat) (xs : List String),
      ((rsample g p k xs).1).length = min k xs.length := by
  intro k
  induction k with
  | zero => intro p xs; simp [rsample]
  | succ k ih =>
    intro p xs
    cases xs with
    | nil => simp [rsample]
    | cons x t =>
      have hi : g p % (t.length + 1) < t.length + 1 := Nat.mod_lt _ (Nat.succ_pos _)
      rw [rsample]
      simp only [List.length_cons]
      rw [ih, List.length_eraseIdx]
      simp only [List.length_cons]
      rw [if_pos hi]
      omega

theorem rsample_mem (g : Nat → Nat) :
    ∀ (k : Nat) (p : Nat) (xs : List String) (y : String),
      y ∈ (rsample g p k xs).1 → y ∈ xs := by
  intro k
  induction k with
  | zero => intro p xs y h; simp [rsample] at h
  | succ k ih =>
    intro p xs y h
    cases xs with
    | nil => simp [rsample] at h
    | cons x t =>
      rw [rsample] at h
      simp only [List.mem_cons] at h
      rcases h with h | h
      · subst h
        have hlen : 0 < (x :: t).length := by simp
        exact getD_mem (Nat.mod_lt _ hlen)
      · exact List.mem_of_mem_eraseIdx (ih _ _ _ h)

theorem cons_getD_eraseIdx_perm {α : Type} :
    ∀ (l : List α) (i : Nat) (d : α), i < l.length →
      List.Perm (l.getD i d :: l.eraseIdx i) l := by
  intro l
  induction l with
  | nil => intro i d h; simp at h
  | cons a t ih =>
    intro i d h
    cases i with
    | zero => simp [List.getD, List.eraseIdx]
    | succ j =>
      have hj : j < t.length := by simpa using h
      have h2 := ih j d hj
      simp only [List.getD_cons_succ, List.eraseIdx_cons_succ]
      exact List.Perm.trans (List.Perm.swap a (t.getD j d) (t.eraseIdx j))
        (List.Perm.cons a h2)

theorem rsample_perm (g : Nat → Nat) :
    ∀ (k : Nat) (p : Nat) (xs : List String), k = xs.length →
      List.Perm (rsample g p k xs).1 xs := by
  intro k
  induction k with
  | zero =>
    intro p xs h
    cases xs with
    | nil => simp [rsample]
    | cons x t => simp at h
  | succ k ih =>
    intro p xs h
    cases xs with
    | nil => simp at h
    | cons x t =>
      rw [rsample]
      have hlen : 0 < (x :: t).length := by simp
      have hi : g p % (x :: t).length < (x :: t).length := Nat.mod_lt _ hlen
      have herase : ((x :: t).eraseIdx (g p % (x :: t).length)).length = (x :: t).length - 1 := by
        rw [List.length_eraseIdx, if_pos hi]
      have hk : k = ((x :: t).eraseIdx (g p % (x :: t).length)).length := by
        rw [herase]; simp only [List.length_cons] at h ⊢; omega
      have hrest := ih (p + 1) _ hk
      exact List.Perm.trans (List.Perm.cons _ hrest) (cons_getD_eraseIdx_perm _ _ _ hi)

theorem rshuffle_perm (g : Nat → Nat) (p : Nat) (xs : List String) :
    List.Perm (rshuffle g p xs).1 xs :=
  rsample_perm g _ _ _ rfl

/-! ## Lemmas about the topic locator -/

theorem ftcLoop_cons (topic line : String) (rest : List String) (b : Bool) :
    ftcLoop topic (line :: rest) b =
      if matchesTopic line topic then line :: ftcLoop topic rest true
      else if b && isHeadingLine (lineKey line) && !matchesTopic line topic then []
      else if b then line :: ftcLoop topic rest b
      else ftcLoop topic rest b := rfl

theorem matchesTopic_empty (line : String) : matchesTopic line "" = true := by
  have h : (lowerStr "").data = [] := rfl
  rw [matchesTopic, h]
  exact containsSub_nil_needle _

theorem ftcLoop_empty_topic (lines : List String) :
    ∀ b, ftcLoop "" lines b = lines := by
  induction lines with
  | nil => intro b; rfl
  | cons line rest ih =>
    intro b
    rw [ftcLoop, if_pos (matchesTopic_empty line), ih]

theorem ftcLoop_no_match (topic : String) (lines : List String)
    (h : ∀ l ∈ lines, matchesTopic l topic = false) :
    ftcLoop topic lines false = [] := by
  induction lines with
  | nil => rfl
  | cons line rest ih =>
    rw [ftcLoop, if_neg (by simp [h line (by simp)])]
    simp only [Bool.false_and, if_neg (by simp : ¬ (false = true))]
    exact ih (fun l hl => h l (by simp [hl]))

theorem ftcLoop_capture_until (topic : String) (stop : String) (rest : List String) :
    ∀ (mid : List String),
      (∀ l ∈ mid, matchesTopic l topic = false ∧ isHeadingLine (lineKey l) = false) →
      matchesTopic stop topic = false → isHeadingLine (lineKey stop) = true →
      ftcLoop topic (mid ++ stop :: rest) true = mid := by
  intro mid
  induction mid with
  | nil =>
    intro _ hs1 hs2
    rw [List.nil_append, ftcLoop, if_neg (by simp [hs1])]
    rw [if_pos (by simp [hs1, hs2])]
  | cons l mid ih =>
    intro hm hs1 hs2
    have hl := hm l (by simp)
    rw [List.cons_append, ftcLoop, if_neg (by simp [hl.1])]
    rw [if_neg (by simp [hl.2]), if_pos rfl]
    rw [ih (fun x hx => hm x (by simp [hx])) hs1 hs2]

theorem linesOf_joinWith {L : List String} (hne : L ≠ [])
    (h : ∀ l ∈ L, Char.ofNat 10 ∉ l.data) :
    linesOf (joinWith nl L) = L := by
  have hdata : (joinWith nl L).data = joinSep [Char.ofNat 10] (L.map String.data) := rfl
  rw [linesOf, hdata, splitOnChar_joinSep (by simpa using hne)
    (by intro l hl; obtain ⟨s, hs, rfl⟩ := List.mem_map.1 hl; exact h s hs)]
  rw [List.map_map]
  have hcomp : ((fun l : List Char => (⟨l⟩ : String)) ∘ String.data) = id := rfl
  rw [hcomp, List.map_id]

/-! ## Claim theorems for the topic locator -/

/-- C9: with an empty topic string, every line matches (the empty pattern
is a substring of everything), capture starts at the first line and never
stops, and rejoining the split lines reproduces the text:
`find_topic_content text "" = text`. -/
theorem claim_C9 (text : String) : find_topic_content text "" = text := by
  rw [find_topic_content, ftcLoop_empty_topic]
  have hne : linesOf text ≠ [] := by
    rw [linesOf]
    intro hc
    exact splitOnChar_ne_nil _ _ (List.map_eq_nil_iff.1 hc)
  rw [if_neg hne]
  show (⟨joinSep [Char.ofNat 10] ((linesOf text).map String.data)⟩ : String) = text
  rw [linesOf, List.map_map]
  have hcomp : (String.data ∘ fun l : List Char => (⟨l⟩ : String)) = id := rfl
  rw [hcomp, List.map_id, joinSep_splitOnChar]

/-- C4: when no line of the text contains the topic (case-insensitively)
or matches a heading pattern, capture never starts and
`find_topic_content` returns the first 50 sentences joined by single
spaces. -/
theorem claim_C4 (text topic : String)
    (h : ∀ l ∈ linesOf text,
      matchesTopic l topic = false ∧ isHeadingLine (lineKey l) = false) :
    find_topic_content text topic = joinWith " " ((sent_tokenize text).take 50) := by
  rw [find_topic_content, ftcLoop_no_match topic _ (fun l hl => (h l hl).1)]
  rw [if_pos rfl]

/-- Witness for C4 at a concrete text and topic. -/
theorem claim_C4_witness :
    (∀ l ∈ linesOf "Alpha beta gamma. Delta epsilon.",
      matchesTopic l "zzz" = false ∧ isHeadingLine (lineKey l) = false) ∧
    find_topic_content "Alpha beta gamma. Delta epsilon." "zzz" =
      joinWith " " ((sent_tokenize "Alpha beta gamma. Delta epsilon.").take 50) :=
  ⟨by decide, claim_C4 "Alpha beta gamma. Delta epsilon." "zzz" (by decide)⟩

/-- C3: a document of the heading line `Chapter 2: Thermodynamics`, five
content lines that neither contain the topic nor match a heading pattern,
the line `Chapter 3: Optics` and arbitrary further lines is located to
exactly the heading line plus the five content lines, joined by
newlines. -/
theorem claim_C3 (content rest : List String)
    (_h5 : content.length = 5)
    (hc : ∀ l ∈ content,
      matchesTopic l "Thermodynamics" = false ∧ isHeadingLine (lineKey l) = false)
    (hn : ∀ l ∈ content, Char.ofNat 10 ∉ l.data)
    (hr : ∀ l ∈ rest, Char.ofNat 10 ∉ l.data) :
    find_topic_content
      (joinWith nl ("Chapter 2: Thermodynamics" :: content ++ "Chapter 3: Optics" :: rest))
      "Thermodynamics"
    = joinWith nl ("Chapter 2: Thermodynamics" :: content) := by
  have hall : ∀ l ∈ ("Chapter 2: Thermodynamics" :: content ++ "Chapter 3: Optics" :: rest),
      Char.ofNat 10 ∉ l.data := by
    intro l hl
    rcases List.mem_cons.1 hl with rfl | hl2
    · decide
    · rcases List.mem_append.1 hl2 with h3 | h4
      · exact hn l h3
      · rcases List.mem_cons.1 h4 with rfl | h5
        · decide
        · exact hr l h5
  rw [find_topic_content, linesOf_joinWith (by simp) hall]
  rw [List.cons_append]
  rw [ftcLoop_cons, if_pos (by decide : matchesTopic "Chapter 2: Thermodynamics" "Thermodynamics" = true)]
  rw [ftcLoop_capture_until "Thermodynamics" "Chapter 3: Optics" rest content hc
    (by decide) (by decide)]
  rw [if_neg (by simp)]
  rfl

/-- Witness for C3 at five concrete content lines. -/
theorem claim_C3_witness :
    ((["heat flows", "energy is conserved", "entropy grows", "work is done",
       "cycles repeat"] : List String).length = 5) ∧
    find_topic_content
      (joinWith nl ("Chapter 2: Thermodynamics" ::
        ["heat flows", "energy is conserved", "entropy grows", "work is done",
         "cycles repeat"] ++ "Chapter 3: Optics" :: ["light bends"]))
      "Thermodynamics"
    = joinWith nl ("Chapter 2: Thermodynamics" ::
        ["heat flows", "energy is conserved", "entropy grows", "work is done",
         "cycles repeat"]) :=
  ⟨by decide,
   claim_C3 ["heat flows", "energy is conserved", "entropy grows", "work is done",
     "cycles repeat"] ["light bends"] (by decide) (by decide) (by decide) (by decide)⟩

/-! ## Lemmas about the distractor generator -/

theorem generic_answers_length : generic_answers.length = 4 := rfl

theorem generate_wrong_answers_length (c : String) (pool : List String)
    (g : Nat → Nat) (p : Nat) :
    ((generate_wrong_answers c pool g p).1).length =
      min 3 (min 2 ((pool.filter (fun w => w ≠ lowerStr c)).map titleStr).length + 2) := by
  simp only [generate_wrong_answers]
  rw [List.length_take, List.length_append, rsample_length, rsample_length,
    generic_answers_length]
  omega

/-- C7: whenever the pool has a word that differs case-insensitively from
the correct answer, the candidate list is non-empty and the distractor
list has exactly 3 elements. -/
theorem claim_C7 (c : String) (pool : List String) (g : Nat → Nat) (p : Nat)
    (h : ∃ w ∈ pool, lowerStr w ≠ lowerStr c) :
    ((generate_wrong_answers c pool g p).1).length = 3 := by
  obtain ⟨w, hw, hne⟩ := h
  have hwf : w ≠ lowerStr c := by
    intro heq
    exact hne (by rw [heq, lowerStr_lowerStr])
  have hmem : w ∈ pool.filter (fun x => x ≠ lowerStr c) := by
    rw [List.mem_filter]
    exact ⟨hw, by simpa using hwf⟩
  have hpos : 0 < ((pool.filter (fun x => x ≠ lowerStr c)).map titleStr).length := by
    rw [List.length_map]
    exact List.length_pos.2 (List.ne_nil_of_mem hmem)
  rw [generate_wrong_answers_length]
  omega

/-- Witness for C7 at a concrete correct answer and pool. -/
theorem claim_C7_witness :
    (∃ w ∈ (["mitochondria", "powerhouse", "cell"] : List String),
      lowerStr w ≠ lowerStr "Mitochondria") ∧
    ((generate_wrong_answers "Mitochondria" ["mitochondria", "powerhouse", "cell"]
        (fun _ => 0) 0).1).length = 3 :=
  ⟨by decide,
   claim_C7 "Mitochondria" ["mitochondria", "powerhouse", "cell"] (fun _ => 0) 0 (by decide)⟩

/-- C10: the truncation to three keeps at most two pool candidates, so at
least one of the two sampled generic answers always survives: every
distractor list contains a member of the fixed generic set. -/
theorem claim_C10 (c : String) (pool : List String) (g : Nat → Nat) (p : Nat) :
    ∃ y ∈ (generate_wrong_answers c pool g p).1, y ∈ generic_answers := by
  simp only [generate_wrong_answers]
  set cands := (pool.filter (fun w => w ≠ lowerStr c)).map titleStr with hcands
  set s1 := rsample g p (min 2 cands.length) cands with hs1
  set s2 := rsample g s1.2 2 generic_answers with hs2
  have h1 : s1.1.length ≤ 2 := by
    rw [hs1, rsample_length]
    omega
  have h2 : s2.1.length = 2 := by
    rw [hs2, rsample_length, generic_answers_length]
    omega
  obtain ⟨y, t, hyt⟩ : ∃ y t, s2.1 = y :: t := by
    cases hc : s2.1 with
    | nil => rw [hc] at h2; simp at h2
    | cons a b => exact ⟨a, b, rfl⟩
  refine ⟨y, ?_, ?_⟩
  · rw [List.take_append_eq_append_take]
    refine List.mem_append_right _ ?_
    rw [hyt]
    have : 1 ≤ 3 - s1.1.length := by omega
    cases h3 : 3 - s1.1.length with
    | zero => omega
    | succ k => simp [List.take]
  · exact rsample_mem g _ _ _ _ (by rw [hyt]; simp)

/-! ## Lemmas about the fallback MCQ generator -/

theorem mkMcqAt_options (g : Nat → Nat) (s : String) (p : Nat) :
    ((mkMcqAt g s p).1).correct_answer ∈ ((mkMcqAt g s p).1).options ∧
    3 ≤ ((mkMcqAt g s p).1).options.length ∧ ((mkMcqAt g s p).1).options.length ≤ 4 := by
  simp only [mkMcqAt]
  set kw := rchoice g p ((mcqWords s).take (min 5 (mcqWords s).length)) "" with hkw
  set ca := titleStr kw.1 with hca
  set wrong := generate_wrong_answers ca (mcqWords s) g kw.2 with hwrong
  have hperm := rshuffle_perm g wrong.2 (ca :: wrong.1.take 3)
  have hwlen : 2 ≤ wrong.1.length ∧ wrong.1.length ≤ 3 := by
    rw [hwrong, generate_wrong_answers_length]
    omega
  have hlen : (rshuffle g wrong.2 (ca :: wrong.1.take 3)).1.length = 1 + min 3 wrong.1.length := by
    rw [hperm.length_eq]
    simp [List.length_take]
    omega
  refine ⟨?_, ?_, ?_⟩
  · exact hperm.mem_iff.2 (List.mem_cons_self _ _)
  · rw [hlen]; omega
  · rw [hlen]; omega

theorem mcqsLoop_mem_options (g : Nat → Nat) :
    ∀ (sents : List String) (p : Nat) (m : Mcq), m ∈ mcqsLoop g sents p →
      m.correct_answer ∈ m.options ∧ 3 ≤ m.options.length ∧ m.options.length ≤ 4 := by
  intro sents
  induction sents with
  | nil => intro p m hm; simp [mcqsLoop] at hm
  | cons sent rest ih =>
    intro p m hm
    rw [mcqsLoop] at hm
    split at hm
    · exact ih _ m hm
    · split at hm
      · exact ih _ m hm
      · rcases List.mem_cons.1 hm with rfl | hm2
        · exact mkMcqAt_options g _ p
        · exact ih _ m hm2

/-- C1 (amended): in every MCQ produced by the fallback generator the
correct answer is one of the options, and there are at most 4 (and at
least 3) options; there are exactly 4 except when the candidate
distractor pool is empty. -/
theorem claim_C1_amended (content : String) (n : Nat) (g : Nat → Nat) (p : Nat) :
    ∀ m ∈ generate_mcqs_fallback content n g p,
      m.correct_answer ∈ m.options ∧ 3 ≤ m.options.length ∧ m.options.length ≤ 4 := by
  intro m hm
  simp only [generate_mcqs_fallback] at hm
  exact mcqsLoop_mem_options g _ _ m (List.take_subset _ _ hm)

/-- Witness for C1 (amended) on a concrete content string whose single
sentence yields one MCQ. -/
theorem claim_C1_witness :
    ((generate_mcqs_fallback "The mitochondria is the powerhouse of the cell." 1
        (fun _ => 0) 0).getD 0 ⟨"", [], "", ""⟩).correct_answer ∈
      ((generate_mcqs_fallback "The mitochondria is the powerhouse of the cell." 1
        (fun _ => 0) 0).getD 0 ⟨"", [], "", ""⟩).options ∧
    3 ≤ ((generate_mcqs_fallback "The mitochondria is the powerhouse of the cell." 1
        (fun _ => 0) 0).getD 0 ⟨"", [], "", ""⟩).options.length ∧
    ((generate_mcqs_fallback "The mitochondria is the powerhouse of the cell." 1
        (fun _ => 0) 0).getD 0 ⟨"", [], "", ""⟩).options.length ≤ 4 :=
  claim_C1_amended "The mitochondria is the powerhouse of the cell." 1 (fun _ => 0) 0 _
    (by decide)

/-- Counterexample to C1 as stated: when every content word of the
sentence equals the key word, the candidate distractor pool is empty and
the produced MCQ has only 3 options. -/
theorem claim_C1_counterexample :
    ∃ m ∈ generate_mcqs_fallback "buffalo buffalo buffalo buffalo" 1 (fun _ => 0) 0,
      m.options.length ≠ 4 := by decide

/-! ## The shape of the MCQ question stem (C8) -/

theorem mkMcqAt_question (g : Nat → Nat) (s : String) (p : Nat)
    (h : mcqWords s ≠ []) :
    ∃ kw ∈ mcqWords s,
      (replaceFirst s kw blankMarker ≠ s ∧
        ((mkMcqAt g s p).1).question = replaceFirst s kw blankMarker) ∨
      (replaceFirst s kw blankMarker = s ∧
        ((mkMcqAt g s p).1).question =
          "What is mentioned about " ++ kw ++ " in the following context?") := by
  simp only [mkMcqAt]
  set words := mcqWords s with hwords
  set kw := rchoice g p (words.take (min 5 words.length)) "" with hkw
  have hpos : 0 < words.length := List.length_pos.2 h
  have htlen : 0 < (words.take (min 5 words.length)).length := by
    rw [List.length_take]
    omega
  have hmem : kw.1 ∈ words := by
    have : kw.1 ∈ words.take (min 5 words.length) := by
      rw [hkw]
      exact getD_mem (Nat.mod_lt _ htlen)
    exact List.take_subset _ _ this
  refine ⟨kw.1, hmem, ?_⟩
  by_cases hrep : replaceFirst s kw.1 blankMarker = s
  · right
    exact ⟨hrep, by simp [mcqQuestionText, hrep]⟩
  · left
    exact ⟨hrep, by simp [mcqQuestionText, hrep]⟩

theorem mcqsLoop_mem_question (g : Nat → Nat) :
    ∀ (sents : List String) (p : Nat) (m : Mcq), m ∈ mcqsLoop g sents p →
      ∃ sent ∈ sents, ∃ kw ∈ mcqWords (stripStr sent),
        (replaceFirst (stripStr sent) kw blankMarker ≠ stripStr sent ∧
          m.question = replaceFirst (stripStr sent) kw blankMarker) ∨
        (replaceFirst (stripStr sent) kw blankMarker = stripStr sent ∧
          m.question = "What is mentioned about " ++ kw ++ " in the following context?") := by
  intro sents
  induction sents with
  | nil => intro p m hm; simp [mcqsLoop] at hm
  | cons sent rest ih =>
    intro p m hm
    rw [mcqsLoop] at hm
    split at hm
    · obtain ⟨s2, hs2, hrest⟩ := ih _ m hm
      exact ⟨s2, by simp [hs2], hrest⟩
    · rename_i hlen
      split at hm
      · obtain ⟨s2, hs2, hrest⟩ := ih _ m hm
        exact ⟨s2, by simp [hs2], hrest⟩
      · rename_i hwl
        rcases List.mem_cons.1 hm with rfl | hm2
        · have hne : mcqWords (stripStr sent) ≠ [] := by
            intro hc
            rw [hc] at hwl
            simp at hwl
          obtain ⟨kw, hkw, hq⟩ := mkMcqAt_question g (stripStr sent) p hne
          exact ⟨sent, by simp, kw, hkw, hq⟩
        · obtain ⟨s2, hs2, hrest⟩ := ih _ m hm2
          exact ⟨s2, by simp [hs2], hrest⟩

/-- C8: every MCQ question stem is either the source sentence with the
first occurrence of the chosen key word blanked out, or, exactly when
that replacement changes nothing, the generic stem naming the term. -/
theorem claim_C8 (content : String) (n : Nat) (g : Nat → Nat) (p : Nat) :
    ∀ m ∈ generate_mcqs_fallback content n g p,
      ∃ sent ∈ sent_tokenize content, ∃ kw ∈ mcqWords (stripStr sent),
        (replaceFirst (stripStr sent) kw blankMarker ≠ stripStr sent ∧
          m.question = replaceFirst (stripStr sent) kw blankMarker) ∨
        (replaceFirst (stripStr sent) kw blankMarker = stripStr sent ∧
          m.question = "What is mentioned about " ++ kw ++ " in the following context?") := by
  intro m hm
  simp only [generate_mcqs_fallback] at hm
  obtain ⟨sent, hsent, hrest⟩ :=
    mcqsLoop_mem_question g _ _ m (List.take_subset _ _ hm)
  exact ⟨sent, List.take_subset _ _ hsent, hrest⟩

/-- Witness for C8 on a concrete content string. -/
theorem claim_C8_witness :
    ∃ sent ∈ sent_tokenize "The mitochondria is the powerhouse of the cell.",
      ∃ kw ∈ mcqWords (stripStr sent),
        (replaceFirst (stripStr sent) kw blankMarker ≠ stripStr sent ∧
          ((generate_mcqs_fallback "The mitochondria is the powerhouse of the cell." 1
              (fun _ => 0) 0).getD 0 ⟨"", [], "", ""⟩).question =
            replaceFirst (stripStr sent) kw blankMarker) ∨
        (replaceFirst (stripStr sent) kw blankMarker = stripStr sent ∧
          ((generate_mcqs_fallback "The mitochondria is the powerhouse of the cell." 1
              (fun _ => 0) 0).getD 0 ⟨"", [], "", ""⟩).question =
            "What is mentioned about " ++ kw ++ " in the following context?") :=
  claim_C8 "The mitochondria is the powerhouse of the cell." 1 (fun _ => 0) 0 _ (by decide)

/-! ## Length behaviour of the three fallback generators (C2) -/

theorem mcqsLoop_length_all (g : Nat → Nat) :
    ∀ (sents : List String) (p : Nat), (∀ s ∈ sents, mcqQualifies s = true) →
      (mcqsLoop g sents p).length = sents.length := by
  intro sents
  induction sents with
  | nil => intro p _; rfl
  | cons sent rest ih =>
    intro p h
    have hq := h sent (by simp)
    rw [mcqQualifies, Bool.and_eq_true, decide_eq_true_eq, decide_eq_true_eq] at hq
    rw [mcqsLoop, if_neg (Nat.not_lt.2 hq.1), if_neg (Nat.not_lt.2 hq.2)]
    simp only [List.length_cons]
    rw [ih _ (fun s hs => h s (by simp [hs]))]

theorem shortLoop_length_all (g : Nat → Nat) :
    ∀ (sents : List String) (p : Nat), (∀ s ∈ sents, shortQualifies s = true) →
      (shortLoop g sents p).length = sents.length := by
  intro sents
  induction sents with
  | nil => intro p _; rfl
  | cons sent rest ih =>
    intro p h
    have hq := h sent (by simp)
    rw [shortQualifies, Bool.and_eq_true, decide_eq_true_eq] at hq
    have hne : (shortWords (stripStr sent)).isEmpty = false := by
      cases hc : (shortWords (stripStr sent)).isEmpty
      · rfl
      · rw [hc] at hq; simp at hq
    rw [shortLoop, if_neg (Nat.not_lt.2 hq.1)]
    simp only [hne, Bool.false_eq_true, if_false, List.length_cons]
    rw [ih _ (fun s hs => h s (by simp [hs]))]

theorem longLoop_length (g : Nat → Nat) :
    ∀ (phrases : List String) (p : Nat), (longLoop g phrases p).length = phrases.length := by
  intro phrases
  induction phrases with
  | nil => intro p; rfl
  | cons ph rest ih =>
    intro p
    rw [longLoop]
    simp only [List.length_cons]
    rw [ih]

/-- C2 (amended): every fallback generator yields at most the requested
count and is total.  The MCQ and short-answer generators yield exactly the
requested count when the text has at least that many sentences and each of
the first `n` sentences passes the respective skip tests (a skipped
examined sentence is not replaced, so the yield can fall short even when
enough qualifying sentences exist later in the text).  The long-answer
generator yields exactly `min n (number of candidate phrases)`. -/
theorem claim_C2_amended (content : String) (n : Nat) (g : Nat → Nat) (p : Nat) :
    (generate_mcqs_fallback content n g p).length ≤ n ∧
    (generate_short_questions_fallback content n g p).length ≤ n ∧
    (generate_long_questions_fallback content n g p).length ≤ n ∧
    (n ≤ (sent_tokenize content).length →
      (∀ s ∈ (sent_tokenize content).take n, mcqQualifies s = true) →
      (generate_mcqs_fallback content n g p).length = n) ∧
    (n ≤ (sent_tokenize content).length →
      (∀ s ∈ (sent_tokenize content).take n, shortQualifies s = true) →
      (generate_short_questions_fallback content n g p).length = n) ∧
    (generate_long_questions_fallback content n g p).length =
      min n (common_phrases content).length := by
  refine ⟨?_, ?_, ?_, ?_, ?_, ?_⟩
  · simp only [generate_mcqs_fallback, List.length_take]
    omega
  · simp only [generate_short_questions_fallback, List.length_take]
    omega
  · simp only [generate_long_questions_fallback, List.length_take]
    omega
  · intro hn hq
    have hmin : min n (sent_tokenize content).length = n := by omega
    simp only [generate_mcqs_fallback, hmin, List.length_take]
    rw [mcqsLoop_length_all g _ p hq, List.length_take]
    omega
  · intro hn hq
    have hmin : min n (sent_tokenize content).length = n := by omega
    simp only [generate_short_questions_fallback, hmin, List.length_take]
    rw [shortLoop_length_all g _ p hq, List.length_take]
    omega
  · simp only [generate_long_questions_fallback, List.length_take]
    rw [longLoop_length, List.length_take]
    omega

/-- Witness for C2 (amended) on a one-sentence content string with
request 1: all bounds and both exactness implications hold. -/
theorem claim_C2_witness :
    (generate_mcqs_fallback "The mitochondria is the powerhouse of the cell." 1
      (fun _ => 0) 0).length ≤ 1 ∧
    (generate_short_questions_fallback "The mitochondria is the powerhouse of the cell." 1
      (fun _ => 0) 0).length ≤ 1 ∧
    (generate_long_questions_fallback "The mitochondria is the powerhouse of the cell." 1
      (fun _ => 0) 0).length ≤ 1 ∧
    (generate_mcqs_fallback "The mitochondria is the powerhouse of the cell." 1
      (fun _ => 0) 0).length = 1 ∧
    (generate_short_questions_fallback "The mitochondria is the powerhouse of the cell." 1
      (fun _ => 0) 0).length = 1 ∧
    (generate_long_questions_fallback "The mitochondria is the powerhouse of the cell." 1
      (fun _ => 0) 0).length =
      min 1 (common_phrases "The mitochondria is the powerhouse of the cell.").length :=
  have h := claim_C2_amended "The mitochondria is the powerhouse of the cell." 1 (fun _ => 0) 0
  ⟨h.1, h.2.1, h.2.2.1, h.2.2.2.1 (by decide) (by decide),
    h.2.2.2.2.1 (by decide) (by decide), h.2.2.2.2.2⟩

/-- Counterexample to C2 as stated: the qualifying-sentence pool has one
sentence (enough for the request of one question), but the generator
examines only the first sentence, which is too short, and yields
nothing. -/
theorem claim_C2_counterexample :
    1 ≤ ((sent_tokenize
        "Hi there. The mitochondria produces energy molecules efficiently always.").filter
          mcqQualifies).length ∧
    (generate_mcqs_fallback
        "Hi there. The mitochondria produces energy molecules efficiently always." 1
        (fun _ => 0) 0).length = 0 := by decide

/-! ## Dispatch to the fallback pipeline (C5) -/

/-- C5: when no Groq client is configured (`self.groq_client` is falsy),
each of the three entry points returns exactly the result of its fallback
generator on the same content and count; the dispatch is total, so the
switch can never raise. -/
theorem claim_C5 (content : String) (n : Nat) (g : Nat → Nat) (p : Nat) :
    generate_mcqs none content n g p = generate_mcqs_fallback content n g p ∧
    generate_short_questions none content n g p =
      generate_short_questions_fallback content n g p ∧
    generate_long_questions none content n g p =
      generate_long_questions_fallback content n g p :=
  ⟨rfl, rfl, rfl⟩

/-! ## The paper formatter header (C6) -/

theorem append_assoc_six (x y z w v u : String) :
    ((((x ++ y) ++ z) ++ w) ++ v) ++ u = x ++ (y ++ (z ++ (w ++ (v ++ u)))) := by
  simp [String.append_assoc]

/-- C6 (amended): for every template string whose whitespace-strip is
non-empty, the formatted paper begins with that exact template string.  A
non-empty but all-whitespace template fails the source's
`template and template.strip()` test and is replaced by the default
header. -/
theorem claim_C6_amended (mcqs : List Mcq) (shorts longs : List String)
    (t today : String) (h : stripStr t ≠ "") :
    ∃ rest, format_question_paper mcqs shorts longs (some t) today = t ++ rest := by
  have ht : t ≠ "" := by
    intro hc
    rw [hc] at h
    exact h rfl
  simp only [format_question_paper]
  rw [if_pos (by simp [ht, h])]
  exact ⟨_, append_assoc_six t nl nl _ _ _⟩

/-- Witness for C6 (amended) with a concrete template. -/
theorem claim_C6_witness :
    ∃ rest, format_question_paper [] [] [] (some "My Template") "2026-01-01" =
      "My Template" ++ rest :=
  claim_C6_amended [] [] [] "My Template" "2026-01-01" (by decide)

/-- Counterexample to C6 as stated: the template `" "` is a non-empty
string, but the output starts with the default header (whose first
character is a newline), not with the template. -/
theorem claim_C6_counterexample :
    ¬ ∃ rest : String,
      format_question_paper [] [] [] (some " ") "2026-01-01" = " " ++ rest := by
  rintro ⟨rest, hEq⟩
  have hh := congrArg (fun s => s.data.head?) hEq
  have h1 : (format_question_paper [] [] [] (some " ") "2026-01-01").data.head? =
      some (Char.ofNat 10) := by decide
  have h2 : ((" " : String) ++ rest).data.head? = some ' ' := by
    rw [String.data_append]
    rfl
  simp only [h1, h2] at hh
  exact absurd (Option.some.inj hh) (by decide)

end QPG
